import Mathlib

/-!
Shallow embedding of the `queue` and `futures` packages of
lemon-mint/go-datastructures, together with proofs of the specified
properties of `Queue.Put`, `Queue.Get`/`Queue.Poll`, `Queue.Peek`,
`Queue.TakeUntil`, `Queue.Dispose`, `ExecuteInParallel` and
`Selectable.Fill`/`Selectable.GetResult`.

The sequential fragment of the queue (all operations running one at a
time, each holding `q.lock` for its whole critical section) is embedded
as pure functions over an explicit state `QState`.  The one genuinely
concurrent piece the spec talks about — the race between a `Poll`
timeout and a `Put` hand-off on a single waiter's capacity-1 `ready`
channel — is embedded separately as a finite step relation
(`raceStep`) whose reachable state space is checked exhaustively.
-/

set_option autoImplicit false
set_option linter.unusedVariables false

namespace GoDS

/-- The three error values of the queue package:
`ErrDisposed`, `ErrTimeout`, `ErrEmptyQueue`. -/
inductive QErr
  | disposed
  | timeout
  | emptyQueue
deriving DecidableEq, Repr

/-- Model of one `sema` as seen from inside a critical section.
In the source a `sema` is a capacity-1 channel `ready` plus a
`sync.WaitGroup` `response`; here `slotFull` records whether a value is
currently buffered in `ready`, and `want` records the `number` argument
of the `Poll` call that registered this waiter (that caller runs
`q.items.get(number)` when the hand-off send succeeds). -/
structure Sema where
  slotFull : Bool
  want : Int
deriving DecidableEq, Repr

/-- `newSema()` as registered by `Poll(number, _)`: an empty `ready`
channel, remembering the size of the request. -/
def mkSema (number : Int) : Sema :=
  { slotFull := false, want := number }

/-- The state guarded by `q.lock` in `Queue[T]`: the waiter registry
`waiters`, the item buffer `items`, and the `disposed` flag. -/
structure QState (T : Type) where
  waiters : List Sema
  items : List T
  disposed : Bool
deriving DecidableEq, Repr

/-- `New(hint)`: empty buffer (the hint only presizes capacity), no
waiters, not disposed. -/
def newQ (T : Type) (hint : Int) : QState T :=
  { waiters := [], items := [], disposed := false }

/-- The counting loop of `items.get`: `for i := 0; i < number; i++`
breaking at `i >= len(*items)`, collecting `(*items)[i]` and finally
reslicing `*items = (*items)[index:]`.  Returns (collected, remaining).
(The `(*items)[i] = zero` writes only prevent memory leaks.) -/
def itemsGetGo {T : Type} : List T → Nat → List T × List T
  | l, 0 => ([], l)
  | [], _ + 1 => ([], [])
  | x :: xs, n + 1 =>
    let r := itemsGetGo xs n
    (x :: r.1, r.2)

/-- `items.get(number)` (src/unnamed/part_002:96-112).  `number` is an
`int64`; a non-positive `number` runs zero iterations. -/
def itemsGet {T : Type} (l : List T) (number : Int) : List T × List T :=
  itemsGetGo l number.toNat

/-- `items.peek()` (src/unnamed/part_002:114-123): front item and an
ok flag; does not modify the buffer. -/
def itemsPeek {T : Type} (l : List T) : Option T :=
  l.head?

/-- `items.getUntil(checker)` (src/unnamed/part_002:125-149): collects
from the front while `checker` holds, stops at the first failing item,
reslices the buffer from there (`*items = (*items)[index+1:]` where
`index` is the last collected position).  Returns (collected,
remaining). -/
def itemsGetUntil {T : Type} : List T → (T → Bool) → List T × List T
  | [], _ => ([], [])
  | x :: xs, checker =>
    if checker x then
      let r := itemsGetUntil xs checker
      (x :: r.1, r.2)
    else
      ([], x :: xs)

/-- The hand-off loop of `Put` (src/unnamed/part_002:186-201), run with
`q.lock` held: pop the oldest waiter (`q.waiters.get()`), stop when the
registry is empty; a non-blocking send on `sema.ready` succeeds exactly
when the slot is empty, in which case the blocked `Poll` caller resumes
inside this critical section, runs `q.items.get(number)` and signals
`sema.response` so the loop may continue; if the slot is already full
the waiter has timed out and the token is simply dropped.  After either
case the loop breaks when the buffer became empty.  Returns the
remaining (waiters, items). -/
def putLoop {T : Type} : List Sema → List T → List Sema × List T
  | [], items => ([], items)
  | w :: rest, items =>
    if w.slotFull then
      -- `select ... default:` — this semaphore timed out
      if items.isEmpty then (rest, items) else putLoop rest items
    else
      -- send succeeds, the waiter consumes up to `w.want` items
      let handed := itemsGet items w.want
      if handed.2.isEmpty then (rest, handed.2) else putLoop rest handed.2

/-- `Queue.Put` (src/unnamed/part_002:173-205): empty input returns
`nil` before anything else; then, under the lock, a disposed queue
returns `ErrDisposed`; otherwise the items are appended and the
hand-off loop runs. -/
def put {T : Type} (s : QState T) (xs : List T) : Except QErr Unit × QState T :=
  if xs.isEmpty then (.ok (), s)
  else if s.disposed then (.error .disposed, s)
  else
    let appended := s.items ++ xs
    let r := putLoop s.waiters appended
    (.ok (), { s with waiters := r.1, items := r.2 })

/-- Outcome of a retrieval call: either it returns (a result and the
post-state) or the caller registers a waiter and blocks on its `ready`
channel (the post-state then contains the new waiter). -/
inductive PollOutcome (T : Type)
  | ret (r : Except QErr (List T)) (s : QState T)
  | blocks (s : QState T)

/-- Whether a `PollOutcome` returned (did not block). -/
def PollOutcome.isRet {T : Type} : PollOutcome T → Bool
  | .ret _ _ => true
  | .blocks _ => false

/-- The state carried by a `PollOutcome`. -/
def PollOutcome.state {T : Type} : PollOutcome T → QState T
  | .ret _ s => s
  | .blocks s => s

/-- `Queue.Poll` (src/unnamed/part_002:219-274), sequential part:
`number < 1` returns `([], nil)` before the lock and the disposed
check; a disposed queue returns `ErrDisposed`; an empty buffer makes
the caller append a fresh `sema` to `waiters`, release the lock and
block on `sema.ready` (the timeout race is modelled by `raceStep`
below); otherwise `q.items.get(number)` is taken immediately. -/
def poll {T : Type} (s : QState T) (number : Int) : PollOutcome T :=
  if number < 1 then .ret (.ok []) s
  else if s.disposed then .ret (.error .disposed) s
  else if s.items.isEmpty then
    .blocks { s with waiters := s.waiters ++ [mkSema number] }
  else
    let r := itemsGet s.items number
    .ret (.ok r.1) { s with items := r.2 }

/-- `Queue.Get(number)` (src/unnamed/part_002:211-213) is
`Poll(number, 0)`; a non-positive timeout never fires, so the
sequential behaviour is exactly `poll`. -/
def get {T : Type} (s : QState T) (number : Int) : PollOutcome T :=
  poll s number

/-- `Queue.Peek` (src/unnamed/part_002:277-293): disposed check first,
then `items.peek()`; never blocks and never modifies the state. -/
def peek {T : Type} (s : QState T) : Except QErr T × QState T :=
  if s.disposed then (.error .disposed, s)
  else
    match itemsPeek s.items with
    | none => (.error .emptyQueue, s)
    | some x => (.ok x, s)

/-- `Queue.TakeUntil` (src/unnamed/part_002:298-313): a `nil` checker
returns `(nil, nil)` before the lock; a disposed queue returns
`ErrDisposed`; otherwise `q.items.getUntil(checker)` runs.  Never
blocks. -/
def takeUntil {T : Type} (s : QState T) (checker : Option (T → Bool)) :
    Except QErr (List T) × QState T :=
  match checker with
  | none => (.ok [], s)
  | some ck =>
    if s.disposed then (.error .disposed, s)
    else
      let r := itemsGetUntil s.items ck
      (.ok r.1, { s with items := r.2 })

/-- `Queue.Dispose` (src/unnamed/part_002:343-364): under the lock,
sets `disposed`, force-signals every registered waiter with a
non-blocking send (visible only to those blocked callers, which then
return `ErrDisposed`), returns the buffered items and drops both the
buffer and the waiter registry. -/
def dispose {T : Type} (s : QState T) : List T × QState T :=
  (s.items, { waiters := [], items := [], disposed := true })

/-- Result of `ExecuteInParallel`: the list of items the supplied
function was applied to (one entry per call, in snapshot-index order —
the atomic `done` cursor hands each index `0..todo-1` to exactly one
worker), the queue after the call, and whether the function returned
while still holding `q.lock`. -/
structure ExecResult (T : Type) where
  applied : List T
  q : Option (QState T)
  lockHeld : Bool
deriving Repr

/-- `ExecuteInParallel` (src/unnamed/part_002:377-416).  A `nil` queue
returns at once.  Otherwise `q.lock.Lock()` is taken and
`todo := len(q.items)` is read; if `todo == 0` the function returns
early — WITHOUT unlocking, so the post-state still holds the lock.  If
`todo > 0`, the workers claim snapshot indices via
`atomic.AddInt64(&done, 1)` so `fn` runs exactly once per buffered
item; then the lock is released and `q.Dispose()` runs. -/
def executeInParallel {T : Type} (q : Option (QState T)) : ExecResult T :=
  match q with
  | none => { applied := [], q := none, lockHeld := false }
  | some s =>
    if s.items.length = 0 then
      { applied := [], q := some s, lockHeld := true }
    else
      { applied := s.items, q := some (dispose s).2, lockHeld := false }

/-! ### Futures: `Selectable` (src/unnamed/part_001) -/

/-- The state of a `Selectable[T]`: stored value `val`, stored error
`err` (`none` models a `nil` Go error), the `filled` flag, and whether
the broadcast `wait` channel has been closed (replaced by the shared
pre-closed sentinel). -/
structure Selectable (T : Type) (E : Type) where
  val : T
  err : Option E
  filled : Bool
  waitClosed : Bool
deriving DecidableEq, Repr

/-- `NewSelectable` / zero value: unfilled, zero `val`, `nil` error,
wait channel not yet created or closed. -/
def newSelectable (T E : Type) [Inhabited T] : Selectable T E :=
  { val := default, err := none, filled := false, waitClosed := false }

/-- `Selectable.Fill` (src/unnamed/part_001:78-92): under `f.m`, if not
yet filled, store the value and error, set `filled`, and close the
wait channel; otherwise change nothing.  Returns the new state and the
function's return value `f.err` (read after the conditional). -/
def fill {T E : Type} (f : Selectable T E) (v : T) (e : Option E) :
    Selectable T E × Option E :=
  if f.filled then (f, f.err)
  else ({ val := v, err := e, filled := true, waitClosed := true }, e)

/-- Outcome of `GetResult`: the (value, error) pair, or blocking on the
wait channel when the future is not yet fulfilled. -/
inductive GetOutcome (T : Type) (E : Type)
  | ret (v : T) (e : Option E)
  | blocks

/-- `Selectable.GetResult` (src/unnamed/part_001:69-74): if `filled`
is 0 the caller blocks on the wait channel; once fulfilled it returns
`(f.val, f.err)`. -/
def getResult {T E : Type} (f : Selectable T E) : GetOutcome T E :=
  if f.filled then .ret f.val f.err else .blocks

/-! ### The `Poll`-timeout vs `Put`-hand-off race (src/unnamed/part_002:186-201, 253-267)

One producer is at the point of its hand-off loop where it has popped
this waiter's `sema` (it already ran `sema.response.Add(1)` just before
its `select`); one consumer registered that `sema` and sits in its
`select` on `sema.ready` versus the timeout timer.  `slot` is the
capacity-1 `ready` channel (`true` = a value is buffered), `ack` the
`response` WaitGroup counter.  Every interleaving of the two threads is
a path of `raceStep`. -/

/-- Program points of the producer inside `Put`'s hand-off for one
`sema`: about to try the non-blocking send; blocked in
`sema.response.Wait()`; took the `default` branch (dead token); or done. -/
inductive PState
  | trySend
  | waitAck
  | dropped
  | finished
deriving DecidableEq, Repr

/-- Program points of the consumer inside `Poll` after registering its
`sema`: in the `select`; timeout fired and about to try the
non-blocking send on its own channel; received the hand-off (about to
take items and `Done()`); won its own token (removes itself, returns
`ErrTimeout`); lost the race to `Put` (about to `Done()`, returns
`ErrTimeout`); returned with items; returned `ErrTimeout`. -/
inductive CState
  | selecting
  | timedRace
  | recvd
  | claimedOwn
  | lateAck
  | retItems
  | retTimeout
deriving DecidableEq, Repr

/-- A global state of the race: the `ready` slot, the `response`
counter, both program points, and ghost flags recording which side's
send on the capacity-1 channel succeeded. -/
structure RaceState where
  slot : Bool
  ack : Nat
  p : PState
  c : CState
  pWon : Bool
  cWon : Bool
deriving DecidableEq, Repr

/-- Initial race state: empty channel, producer at its send, consumer
in its select. -/
def raceInit : RaceState :=
  { slot := false, ack := 0, p := .trySend, c := .selecting,
    pWon := false, cWon := false }

/-- One interleaving step of the race: each list element is a possible
next state.  The producer's `sema.response.Add(1)` precedes its
`select`, so `ack` rises on both of its branches; a non-blocking send
succeeds exactly when the slot is empty; the consumer's timeout timer
may fire at any moment while it is still in its `select`;
`response.Wait()` returns only when `ack` is zero. -/
def raceStep (s : RaceState) : List RaceState :=
  (match s.p with
    | .trySend =>
      if s.slot then
        [{ s with ack := s.ack + 1, p := .dropped }]
      else
        [{ s with ack := s.ack + 1, slot := true, p := .waitAck, pWon := true }]
    | .waitAck => if s.ack = 0 then [{ s with p := .finished }] else []
    | .dropped => []
    | .finished => []) ++
  (match s.c with
    | .selecting =>
      (if s.slot then [{ s with slot := false, c := .recvd }] else []) ++
      [{ s with c := .timedRace }]
    | .timedRace =>
      if s.slot then [{ s with c := .lateAck }]
      else [{ s with slot := true, c := .claimedOwn, cWon := true }]
    | .recvd => [{ s with ack := s.ack - 1, c := .retItems }]
    | .claimedOwn => [{ s with c := .retTimeout }]
    | .lateAck => [{ s with ack := s.ack - 1, c := .retTimeout }]
    | .retItems => []
    | .retTimeout => [])

/-- A race state is terminal when both threads have left their
protocol: the producer either dropped the token or finished its
rendezvous, and the consumer returned items or a timeout error. -/
def raceTerminal (s : RaceState) : Bool :=
  (s.p = PState.dropped || s.p = PState.finished) &&
  (s.c = CState.retItems || s.c = CState.retTimeout)

/-- A variant that strictly decreases along every step, bounding every
execution of the race protocol. -/
def raceRank (s : RaceState) : Nat :=
  (match s.p with
    | .trySend => 2
    | .waitAck => 1
    | .dropped => 0
    | .finished => 0) +
  (match s.c with
    | .selecting => 3
    | .timedRace => 2
    | .recvd => 1
    | .claimedOwn => 1
    | .lateAck => 1
    | .retItems => 0
    | .retTimeout => 0)

/-- Iterated expansion of the reachable-state set from `raceInit`. -/
def raceReachAux : Nat → List RaceState
  | 0 => [raceInit]
  | n + 1 =>
    let r := raceReachAux n
    (r ++ (r.map raceStep).flatten).dedup

/-- The full reachable-state set of the race protocol (`raceRank` is at
most 5, so 6 expansions close the set; closure is proved, not
assumed). -/
def raceReach : List RaceState :=
  raceReachAux 6

/-! ### Derived forms used by the theorems -/

/-- One public queue operation, for stating state-trajectory
invariants. -/
inductive QOp (T : Type)
  | put (xs : List T)
  | poll (number : Int)
  | get (number : Int)
  | peek
  | takeUntil (checker : Option (T → Bool))
  | dispose

/-- The post-state of one public queue operation. -/
def runOp {T : Type} (s : QState T) : QOp T → QState T
  | .put xs => (put s xs).2
  | .poll n => (poll s n).state
  | .get n => (get s n).state
  | .peek => (peek s).2
  | .takeUntil ck => (takeUntil s ck).2
  | .dispose => (dispose s).2

/-- The state after a sequence of `Put` calls. -/
def putAll {T : Type} (s : QState T) (pss : List (List T)) : QState T :=
  pss.foldl (fun s xs => (put s xs).2) s

/-- The future after a sequence of further `Fill` calls. -/
def fillAll {T E : Type} (f : Selectable T E) (fs : List (T × Option E)) :
    Selectable T E :=
  fs.foldl (fun f p => (fill f p.1 p.2).1) f

/-! ### Helper lemmas -/

/-- The counting loop of `items.get` takes and drops a prefix. -/
theorem itemsGetGo_eq {T : Type} (l : List T) (k : Nat) :
    itemsGetGo l k = (l.take k, l.drop k) := by
  induction l generalizing k with
  | nil => cases k <;> simp [itemsGetGo]
  | cons x xs ih =>
    cases k with
    | zero => simp [itemsGetGo]
    | succ n => simp [itemsGetGo, ih]

/-- `items.get(number)` returns the first `number` items (all of them
when fewer are buffered) and leaves exactly the rest. -/
theorem itemsGet_eq {T : Type} (l : List T) (number : Int) :
    itemsGet l number = (l.take number.toNat, l.drop number.toNat) :=
  itemsGetGo_eq l number.toNat

/-- `items.getUntil(checker)` removes exactly the maximal prefix
satisfying the checker and leaves the rest. -/
theorem itemsGetUntil_eq {T : Type} (l : List T) (p : T → Bool) :
    itemsGetUntil l p = (l.takeWhile p, l.dropWhile p) := by
  induction l with
  | nil => simp [itemsGetUntil]
  | cons x xs ih =>
    by_cases h : p x <;>
      simp [itemsGetUntil, List.takeWhile_cons, List.dropWhile_cons, h, ih]

/-- Folding `put` over a waiter-free, undisposed state appends the
concatenation of all the inserted batches. -/
theorem putAll_spec {T : Type} (pss : List (List T)) (base : List T) :
    putAll { waiters := [], items := base, disposed := false } pss =
      { waiters := [], items := base ++ pss.flatten, disposed := false } := by
  induction pss generalizing base with
  | nil => simp [putAll]
  | cons xs rest ih =>
    simp only [putAll, List.foldl_cons, List.flatten_cons]
    by_cases h : xs.isEmpty
    · have hx : xs = [] := by simpa using h
      subst hx
      simpa [put, putAll] using ih base
    · have : put { waiters := [], items := base, disposed := false } xs =
          (.ok (), { waiters := [], items := base ++ xs, disposed := false }) := by
        simp [put, h, putLoop]
      rw [this]
      simpa [putAll, List.append_assoc] using ih (base ++ xs)

/-- Once disposed, every single public operation leaves `disposed`
set. -/
theorem runOp_disposed {T : Type} (s : QState T) (op : QOp T)
    (hd : s.disposed = true) : (runOp s op).disposed = true := by
  cases op with
  | put xs =>
    cases xs <;> simp [runOp, put, hd]
  | poll n =>
    by_cases h : n < 1 <;> simp [runOp, poll, PollOutcome.state, h, hd]
  | get n =>
    by_cases h : n < 1 <;> simp [runOp, get, poll, PollOutcome.state, h, hd]
  | peek => simp [runOp, peek, hd]
  | takeUntil ck =>
    cases ck <;> simp [runOp, takeUntil, hd]
  | dispose => simp [runOp, dispose]

/-- Once disposed, every sequence of public operations leaves
`disposed` set. -/
theorem foldl_runOp_disposed {T : Type} (ops : List (QOp T)) (s : QState T)
    (hd : s.disposed = true) : (ops.foldl runOp s).disposed = true := by
  induction ops generalizing s with
  | nil => exact hd
  | cons op rest ih => exact ih (runOp s op) (runOp_disposed s op hd)

/-- A fulfilled future is left unchanged by any further `Fill` calls. -/
theorem fillAll_filled {T E : Type} (f : Selectable T E)
    (fs : List (T × Option E)) (hf : f.filled = true) : fillAll f fs = f := by
  induction fs with
  | nil => rfl
  | cons p rest ih => simpa [fillAll, fill, hf] using ih

/-! ### Claim theorems -/

/-- C1 (counterexample): the claim as stated fails on an empty buffer.
After the empty sequence of `Put` calls (zero items buffered, which is
"fewer than N"), `Poll(1)`/`Get(1)` does not return the empty list of
buffered items: it registers a waiter and blocks on its `ready`
channel (forever, for `Get`; until the timer fires, for a finite
`Poll` timeout). -/
theorem c1_counterexample :
    poll (newQ Int 0) 1 =
      PollOutcome.blocks { waiters := [mkSema 1], items := [], disposed := false } ∧
    get (newQ Int 0) 1 =
      PollOutcome.blocks { waiters := [mkSema 1], items := [], disposed := false } ∧
    (poll (newQ Int 0) 1).isRet = false :=
  ⟨rfl, rfl, rfl⟩

/-- C1 (amended): for every sequence of `Put` calls on a fresh queue
with no concurrent `Get`, as long as at least one item is buffered, a
subsequent `Poll(N)`/`Get(N)` with `N ≥ 1` returns the first `N` items
in insertion order (all items when fewer than `N` are buffered) and
removes exactly those items from the front of the buffer; on an empty
buffer the call blocks instead of returning. -/
theorem c1_fifo {T : Type} (hint : Int) (pss : List (List T)) (N : Int)
    (h1 : 1 ≤ N) (h2 : pss.flatten ≠ []) :
    (putAll (newQ T hint) pss).items = pss.flatten ∧
    poll (putAll (newQ T hint) pss) N =
      .ret (.ok (pss.flatten.take N.toNat))
        { waiters := [], items := pss.flatten.drop N.toNat, disposed := false } ∧
    get (putAll (newQ T hint) pss) N =
      .ret (.ok (pss.flatten.take N.toNat))
        { waiters := [], items := pss.flatten.drop N.toNat, disposed := false } := by
  have hs : putAll (newQ T hint) pss =
      { waiters := [], items := pss.flatten, disposed := false } := by
    simpa [newQ] using putAll_spec pss []
  have hn : ¬ N < 1 := not_lt.mpr h1
  have hne : ¬ (pss.flatten.isEmpty = true) := by
    simpa [List.isEmpty_iff] using h2
  refine ⟨by rw [hs], ?_, ?_⟩ <;>
    simp [get, hs, poll, hn, hne, itemsGet_eq]

/-- C1 (witness): Scenario A.  `New(0)`; `Put(1,2,3)`; `Get(2)` returns
`[1,2]`, leaving `[3]`, whose front `Peek` then reports as `3`. -/
theorem c1_witness :
    poll (putAll (newQ Int 0) [[1, 2, 3]]) 2 =
      .ret (.ok [1, 2]) { waiters := [], items := [3], disposed := false } ∧
    (peek ({ waiters := [], items := [3], disposed := false } : QState Int)).1 = .ok 3 := by
  have h := c1_fifo (T := Int) 0 [[1, 2, 3]] 2 (by decide) (by decide)
  exact ⟨h.2.1, rfl⟩

/-- C2 (counterexample): the claim as stated fails for an empty `Put`
on a disposed queue: the empty-input check precedes the disposed
check, so `Put()` returns a `nil` error, not `ErrDisposed`. -/
theorem c2_counterexample :
    ((dispose (newQ Int 0)).2).disposed = true ∧
    put (dispose (newQ Int 0)).2 ([] : List Int) = (.ok (), (dispose (newQ Int 0)).2) ∧
    (put (dispose (newQ Int 0)).2 ([] : List Int)).1 ≠ .error .disposed :=
  ⟨rfl, rfl, fun h => Except.noConfusion h⟩

/-- C2 (amended): once `disposed` is true it is never observed false
again (no sequence of public operations resets it), and every
subsequent `Put` of at least one item, `Poll`/`Get` with `number ≥ 1`,
`Peek`, and `TakeUntil` with a non-nil checker returns `ErrDisposed`
leaving the buffer and the waiter registry untouched; the defensive
no-ops — `Put` of zero items, `Poll` with `number < 1`, `TakeUntil`
with a nil checker — return success and also leave the state
untouched. -/
theorem c2_disposal_poisoning {T : Type} (s : QState T) (hd : s.disposed = true) :
    (∀ ops : List (QOp T), (ops.foldl runOp s).disposed = true) ∧
    (∀ (x : T) (xs : List T), put s (x :: xs) = (.error .disposed, s)) ∧
    (∀ n : Int, 1 ≤ n → poll s n = .ret (.error .disposed) s) ∧
    (∀ n : Int, 1 ≤ n → get s n = .ret (.error .disposed) s) ∧
    peek s = (.error .disposed, s) ∧
    (∀ ck : T → Bool, takeUntil s (some ck) = (.error .disposed, s)) ∧
    put s [] = (.ok (), s) ∧
    (∀ n : Int, n < 1 → poll s n = .ret (.ok []) s) ∧
    takeUntil s none = (.ok [], s) := by
  refine ⟨fun ops => foldl_runOp_disposed ops s hd, ?_, ?_, ?_, ?_, ?_, ?_, ?_, ?_⟩
  · intro x xs; simp [put, hd]
  · intro n hn; simp [poll, not_lt.mpr hn, hd]
  · intro n hn; simp [get, poll, not_lt.mpr hn, hd]
  · simp [peek, hd]
  · intro ck; simp [takeUntil, hd]
  · rfl
  · intro n hn; simp [poll, hn]
  · rfl

/-- C2 (witness): on the queue obtained by disposing a fresh queue,
a later operation sequence still reports `disposed`, `Put(7)` and
`Poll(1)` fail with `ErrDisposed`, and `Put()` succeeds. -/
theorem c2_witness :
    (([QOp.put [5], QOp.peek] : List (QOp Int)).foldl runOp
        (dispose (newQ Int 0)).2).disposed = true ∧
    put (dispose (newQ Int 0)).2 [7] = (.error .disposed, (dispose (newQ Int 0)).2) ∧
    poll (dispose (newQ Int 0)).2 1 = .ret (.error .disposed) (dispose (newQ Int 0)).2 ∧
    put (dispose (newQ Int 0)).2 ([] : List Int) = (.ok (), (dispose (newQ Int 0)).2) := by
  have h := c2_disposal_poisoning (T := Int) (dispose (newQ Int 0)).2 rfl
  exact ⟨h.1 _, h.2.1 7 [], h.2.2.1 1 (by decide), h.2.2.2.2.2.2.1⟩

/-- C3: `Dispose` sets the `disposed` flag, clears and returns all
remaining buffered items in order, and drops the waiter registry; a
second or later `Dispose` is a no-op returning an empty result, and
`Dispose` on a fresh queue returns an empty result. -/
theorem c3_dispose {T : Type} (s : QState T) (hint : Int) :
    dispose s = (s.items, { waiters := [], items := [], disposed := true }) ∧
    (dispose s).2.disposed = true ∧
    (dispose s).2.waiters = [] ∧
    (dispose s).2.items = [] ∧
    dispose (dispose s).2 = ([], (dispose s).2) ∧
    dispose (newQ T hint) = ([], { waiters := [], items := [], disposed := true }) :=
  ⟨rfl, rfl, rfl, rfl, rfl, rfl⟩

/-- C4: in the race between a `Poll` timeout and a concurrent `Put`
hand-off on the same waiter's capacity-1 `ready` channel, over the
reachable states of the protocol (enumerated in `raceReach`, proved
closed under `raceStep` in the second conjunct): the two sides never
both win the slot; every non-terminal reachable state has a successor
and every step strictly decreases `raceRank`, so each maximal
interleaving ends in a terminal state; in every terminal state the
waiting caller has returned either the items or the timeout error and
never both; it returns items only when the producer's send won the
slot; and the producer never stays blocked in `response.Wait()` — in
every terminal state it either dropped the token or finished its
rendezvous with the ack counter back at zero. -/
theorem c4_timeout_exclusivity :
    raceInit ∈ raceReach ∧
    (∀ s ∈ raceReach, ∀ t ∈ raceStep s, t ∈ raceReach) ∧
    (∀ s ∈ raceReach, ¬(s.pWon = true ∧ s.cWon = true)) ∧
    (∀ s ∈ raceReach, raceTerminal s = false → raceStep s ≠ []) ∧
    (∀ s ∈ raceReach, ∀ t ∈ raceStep s, raceRank t < raceRank s) ∧
    (∀ s ∈ raceReach, raceTerminal s = true →
      (s.c = CState.retItems ∧ ¬ s.c = CState.retTimeout) ∨
      (s.c = CState.retTimeout ∧ ¬ s.c = CState.retItems)) ∧
    (∀ s ∈ raceReach, s.c = CState.retItems → s.pWon = true) ∧
    (∀ s ∈ raceReach, raceTerminal s = true →
      s.p = PState.dropped ∨ (s.p = PState.finished ∧ s.ack = 0)) := by
  decide

/-- C5: `TakeUntil` with a checker on a non-disposed queue removes and
returns the maximal prefix of the buffer satisfying the checker,
stopping at the first failing item and leaving the remaining items in
order; on an empty buffer it returns an empty result (and, being a
total function here, it never blocks). -/
theorem c5_takeUntil {T : Type} (s : QState T) (p : T → Bool)
    (hd : s.disposed = false) :
    takeUntil s (some p) =
      (.ok (s.items.takeWhile p), { s with items := s.items.dropWhile p }) ∧
    (s.items = [] → takeUntil s (some p) = (.ok [], s)) := by
  obtain ⟨w, i, d⟩ := s
  simp only at hd
  subst hd
  constructor
  · simp [takeUntil, itemsGetUntil_eq]
  · intro h
    simp only at h
    subst h
    simp [takeUntil, itemsGetUntil_eq]

/-- C5 (witness): Scenario D.  `New(0)`; `Put(1,2,3,4)`;
`TakeUntil(x => x < 3)` returns `[1,2]` and the buffer is `[3,4]`;
and on the fresh empty queue the same call returns `[]` unchanged. -/
theorem c5_witness :
    takeUntil ((put (newQ Int 0) [1, 2, 3, 4]).2) (some (fun x => x < 3)) =
      (.ok [1, 2], { waiters := [], items := [3, 4], disposed := false }) ∧
    takeUntil (newQ Int 0) (some (fun x => x < 3)) = (.ok [], newQ Int 0) := by
  have h1 := c5_takeUntil ((put (newQ Int 0) [1, 2, 3, 4]).2) (fun x => x < 3) rfl
  have h2 := c5_takeUntil (newQ Int 0) (fun x => x < 3) rfl
  exact ⟨h1.1, h2.2 rfl⟩

/-- C6: `Peek` always leaves the state (buffer, waiters, disposed flag)
unchanged and, being a total function here, never blocks; it returns
`ErrDisposed` when disposed, `ErrEmptyQueue` when not disposed and the
buffer is empty, and the front item otherwise. -/
theorem c6_peek {T : Type} (s : QState T) :
    (peek s).2 = s ∧
    (s.disposed = true → (peek s).1 = .error .disposed) ∧
    (s.disposed = false → s.items = [] → (peek s).1 = .error .emptyQueue) ∧
    (∀ (x : T) (xs : List T), s.disposed = false → s.items = x :: xs →
      (peek s).1 = .ok x) := by
  refine ⟨?_, ?_, ?_, ?_⟩
  · by_cases hd : s.disposed
    · simp [peek, hd]
    · cases h : s.items <;> simp [peek, hd, itemsPeek, h]
  · intro hd; simp [peek, hd]
  · intro hd h; simp [peek, hd, itemsPeek, h]
  · intro x xs hd h; simp [peek, hd, itemsPeek, h]

/-- C6 (witness): `Peek` on a disposed queue, on a fresh empty queue,
and on a queue holding `[3]`, leaving the latter unchanged. -/
theorem c6_witness :
    (peek (dispose (newQ Int 0)).2).1 = .error .disposed ∧
    (peek (newQ Int 0)).1 = .error .emptyQueue ∧
    (peek ({ waiters := [], items := [3], disposed := false } : QState Int)).1 = .ok 3 ∧
    (peek ({ waiters := [], items := [3], disposed := false } : QState Int)).2 =
      { waiters := [], items := [3], disposed := false } := by
  refine ⟨(c6_peek _).2.1 rfl, (c6_peek _).2.2.1 rfl rfl,
    (c6_peek _).2.2.2 3 [] rfl rfl, (c6_peek _).1⟩

/-- C7: `Poll(number, timeout)` with `number < 1` — and hence
`Get(number)` with `number < 1` — returns an empty slice with a `nil`
error and an unchanged queue, on every state including a disposed
one (the check precedes the disposed check). -/
theorem c7_poll_nonpositive {T : Type} (s : QState T) (n : Int) (h : n < 1) :
    poll s n = .ret (.ok []) s ∧ get s n = .ret (.ok []) s := by
  constructor <;> simp [get, poll, h]

/-- C7 (witness): `Poll(0)`/`Get(0)` and `Poll(-5)` on a disposed queue
return `([], nil)`, not `ErrDisposed`, leaving the state as it was. -/
theorem c7_witness :
    poll (dispose (newQ Int 0)).2 0 = .ret (.ok []) (dispose (newQ Int 0)).2 ∧
    get (dispose (newQ Int 0)).2 0 = .ret (.ok []) (dispose (newQ Int 0)).2 ∧
    poll (dispose (newQ Int 0)).2 (-5) = .ret (.ok []) (dispose (newQ Int 0)).2 := by
  have h0 := c7_poll_nonpositive (dispose (newQ Int 0)).2 0 (by decide)
  have h5 := c7_poll_nonpositive (dispose (newQ Int 0)).2 (-5) (by decide)
  exact ⟨h0.1, h0.2, h5.1⟩

/-- C8: evaluation of `ExecuteInParallel` at the failing input and
around it.  On a non-nil, already-empty queue (`New(0)`) the function
returns early still holding `q.lock` (`lockHeld = true`) with the
queue not disposed — not the no-op the claim and spec describe.  A nil
queue is a true no-op, and on a non-empty queue the function is
applied exactly once to each buffered item (in snapshot order) and the
queue ends disposed. -/
theorem c8_executeInParallel :
    executeInParallel (some (newQ Int 0)) =
      { applied := [], q := some (newQ Int 0), lockHeld := true } ∧
    (executeInParallel (some (newQ Int 0))).lockHeld = true ∧
    (newQ Int 0).disposed = false ∧
    executeInParallel (none : Option (QState Int)) =
      { applied := [], q := none, lockHeld := false } ∧
    executeInParallel (some ((put (newQ Int 0) [1, 2, 3]).2)) =
      { applied := [1, 2, 3],
        q := some { waiters := [], items := [], disposed := true },
        lockHeld := false } :=
  ⟨rfl, rfl, rfl, rfl, rfl⟩

/-- C9: the future is fulfilled at most once: the first `Fill` on an
unfulfilled `Selectable` stores its value and error (and returns the
error), every later `Fill` leaves the future entirely unchanged, and
`GetResult` returns the value/error pair of that first `Fill`. -/
theorem c9_fill_once {T E : Type} (f : Selectable T E) (hf : f.filled = false)
    (v : T) (e : Option E) (fs : List (T × Option E)) :
    ((fill f v e).1).val = v ∧
    ((fill f v e).1).err = e ∧
    ((fill f v e).1).filled = true ∧
    (fill f v e).2 = e ∧
    fillAll (fill f v e).1 fs = (fill f v e).1 ∧
    getResult (fillAll (fill f v e).1 fs) = .ret v e := by
  have h1 : (fill f v e).1 =
      { val := v, err := e, filled := true, waitClosed := true } := by
    simp [fill, hf]
  have h2 := fillAll_filled (fill f v e).1 fs (by rw [h1])
  refine ⟨by rw [h1], by rw [h1], by rw [h1], by simp [fill, hf], h2, ?_⟩
  rw [h2, h1]
  rfl

/-- C9 (witness): a fresh `Selectable` filled with `42`, then filled
again with `7`, is unchanged by the second fill, and `GetResult`
returns `42` with a `nil` error. -/
theorem c9_witness :
    fillAll (fill (newSelectable Int Unit) 42 none).1 [(7, some ())] =
      (fill (newSelectable Int Unit) 42 none).1 ∧
    getResult (fillAll (fill (newSelectable Int Unit) 42 none).1 [(7, some ())]) =
      .ret 42 none := by
  have h := c9_fill_once (newSelectable Int Unit) rfl 42 none [(7, some ())]
  exact ⟨h.2.2.2.2.1, h.2.2.2.2.2⟩

/-- C10: `Put` with zero items returns a `nil` error and changes
nothing on every queue, including one just disposed: the empty-input
check precedes the disposed check. -/
theorem c10_put_empty {T : Type} (s : QState T) :
    put s [] = (.ok (), s) ∧
    put (dispose s).2 [] = (.ok (), (dispose s).2) :=
  ⟨rfl, rfl⟩

end GoDS
